import Mathlib

/-
Verification of the sandboxed-execution request pipeline (src/app.py).

The Python source is shallowly embedded: pure data flow becomes Lean
functions, the Docker side effects become an explicit event trace over an
abstract backend, and the two reasoning-provider calls become oracle string
inputs (their outputs are untrusted data; the source treats them the same
way).  Python exceptions that escape `handle_request` (and are turned into a
500 response by the outer `api` handler) are modelled as `Except.error`.
-/

/-- JSON values as produced by Python's `json.loads` on the fragment this
program exchanges: numbers are kept as their source lexeme (the program never
does arithmetic on them, so their textual identity is all that matters). -/
inductive JVal where
  | null : JVal
  | bool : Bool → JVal
  | num : String → JVal
  | str : String → JVal
  | arr : List JVal → JVal
  | obj : List (String × JVal) → JVal

/-- A Python `dict` with string keys, as an insertion-ordered association
list (CPython dicts preserve insertion order). -/
abbrev Dict := List (String × JVal)

/-- `d[k] = v` on a Python dict: overwrite in place if the key exists
(keeping its position, as CPython does), else append. -/
def dictInsert (d : Dict) (k : String) (v : JVal) : Dict :=
  match d with
  | [] => [(k, v)]
  | (k0, v0) :: rest =>
      if k0 = k then (k, v) :: rest else (k0, v0) :: dictInsert rest k v

/-- `d.get(k)` on a Python dict (first occurrence of the key). -/
def lookupD (k : String) (d : Dict) : Option JVal :=
  match d with
  | [] => none
  | (k0, v) :: rest => if k0 = k then some v else lookupD k rest

/-- `d.update(new)` on Python dicts: insert every pair of `new`, in order,
into `d` (later pairs overwrite earlier ones and pairs of `d`). -/
def dictUpdate (d : Dict) (new : Dict) : Dict :=
  new.foldl (fun acc kv => dictInsert acc kv.1 kv.2) d

/-- The value the last occurrence of `k` in `kvs` carries, if any: the value
a sequence of Python dict writes in list order leaves behind. -/
def lookupFromEnd (k : String) (kvs : Dict) : Option JVal :=
  lookupD k kvs.reverse

/- Characters written via their code points so that quote, backslash and
brace characters never appear literally in the file. -/

def dquote : Char := Char.ofNat 34

def bslash : Char := Char.ofNat 92

def lbrace : Char := Char.ofNat 123

def rbrace : Char := Char.ofNat 125

/-- JSON insignificant whitespace (also what Python's `json.loads` skips). -/
def isJsonWs (c : Char) : Bool :=
  c = ' ' || c = '\t' || c = '\n' || c = '\r'

def skipWs : List Char → List Char
  | [] => []
  | c :: rest => if isJsonWs c then skipWs rest else c :: rest

/-- Python's `str.strip()` with no argument (on the whitespace this program
meets): drop leading and trailing whitespace. -/
def pyStrip (s : String) : String :=
  String.mk ((skipWs ((skipWs s.data).reverse)).reverse)

def asciiLowerChar (c : Char) : Char :=
  if 65 ≤ c.toNat ∧ c.toNat ≤ 90 then Char.ofNat (c.toNat + 32) else c

/-- Python's `str.lower()` on the ASCII range. -/
def asciiLower (s : String) : String :=
  String.mk (s.data.map asciiLowerChar)

/-- Python's `str.endswith(post)`. -/
def strEndsWith (s post : String) : Bool :=
  post.data.reverse.isPrefixOf s.data.reverse

/-- Longest digit run at the front: `(digits, rest)`. -/
def spanDigits : List Char → List Char × List Char
  | [] => ([], [])
  | c :: rest =>
      if c.isDigit then
        let p := spanDigits rest
        (c :: p.1, p.2)
      else ([], c :: rest)

def hexVal (c : Char) : Option Nat :=
  if c.isDigit then some (c.toNat - 48)
  else if 97 ≤ c.toNat ∧ c.toNat ≤ 102 then some (c.toNat - 87)
  else if 65 ≤ c.toNat ∧ c.toNat ≤ 70 then some (c.toNat - 55)
  else none

/-- Body of a JSON string literal after the opening quote: collects
characters (handling the escape sequences `json.loads` accepts) until the
closing quote, returning the string and the remaining input.  The fuel only
serves termination; callers supply more than any input can use. -/
def parseStrAux : Nat → List Char → List Char → Option (String × List Char)
  | 0, _, _ => none
  | _, _, [] => none
  | Nat.succ fuel, acc, c :: rest =>
      if c = dquote then some (String.mk acc.reverse, rest)
      else if c = bslash then
        match rest with
        | [] => none
        | e :: rest2 =>
            if e = dquote then parseStrAux fuel (dquote :: acc) rest2
            else if e = bslash then parseStrAux fuel (bslash :: acc) rest2
            else if e = '/' then parseStrAux fuel ('/' :: acc) rest2
            else if e = 'n' then parseStrAux fuel ('\n' :: acc) rest2
            else if e = 't' then parseStrAux fuel ('\t' :: acc) rest2
            else if e = 'r' then parseStrAux fuel ('\r' :: acc) rest2
            else if e = 'b' then parseStrAux fuel (Char.ofNat 8 :: acc) rest2
            else if e = 'f' then parseStrAux fuel (Char.ofNat 12 :: acc) rest2
            else if e = 'u' then
              match rest2 with
              | h1 :: h2 :: h3 :: h4 :: rest3 =>
                  match hexVal h1, hexVal h2, hexVal h3, hexVal h4 with
                  | some a, some b, some c1, some d =>
                      parseStrAux fuel
                        (Char.ofNat (a * 4096 + b * 256 + c1 * 16 + d) :: acc) rest3
                  | _, _, _, _ => none
              | _ => none
            else none
      else parseStrAux fuel (c :: acc) rest

/-- A JSON string literal after the opening quote, with enough fuel for the
remaining input. -/
def parseStr (cs : List Char) : Option (String × List Char) :=
  parseStrAux (cs.length + 1) [] cs

/-- Optional fraction part `.digits` of a JSON number (empty if absent or
ill-formed; an ill-formed tail is left in place and later rejected by the
surrounding grammar, as in Python). -/
def parseFracPart (cs : List Char) : List Char × List Char :=
  match cs with
  | c :: rest =>
      if c = '.' then
        match spanDigits rest with
        | ([], _) => ([], cs)
        | (ds, rest2) => (c :: ds, rest2)
      else ([], cs)
  | [] => ([], [])

/-- Optional exponent part `e[+-]digits` of a JSON number. -/
def parseExpPart (cs : List Char) : List Char × List Char :=
  match cs with
  | c :: rest =>
      if c = 'e' ∨ c = 'E' then
        match rest with
        | s :: rest2 =>
            if s = '+' ∨ s = '-' then
              match spanDigits rest2 with
              | ([], _) => ([], cs)
              | (ds, rest3) => (c :: s :: ds, rest3)
            else
              match spanDigits rest with
              | ([], _) => ([], cs)
              | (ds, rest3) => (c :: ds, rest3)
        | [] => ([], cs)
      else ([], cs)
  | [] => ([], [])

/-- A JSON number per the grammar `json.loads` uses: optional minus, integer
part without leading zeros, optional fraction and exponent.  The lexeme is
kept verbatim. -/
def parseNum (cs : List Char) : Option (JVal × List Char) :=
  let sgnSplit : List Char × List Char :=
    match cs with
    | c :: rest => if c = '-' then ([c], rest) else ([], cs)
    | [] => ([], [])
  match sgnSplit.2 with
  | [] => none
  | c :: rest =>
      if c = '0' then
        let f := parseFracPart rest
        let e := parseExpPart f.2
        some (JVal.num (String.mk (sgnSplit.1 ++ [c] ++ f.1 ++ e.1)), e.2)
      else if c.isDigit then
        let ds := spanDigits rest
        let f := parseFracPart ds.2
        let e := parseExpPart f.2
        some (JVal.num (String.mk (sgnSplit.1 ++ [c] ++ ds.1 ++ f.1 ++ e.1)), e.2)
      else none

mutual

/-- One JSON value at the front of the input (whitespace already skipped),
with the unconsumed rest.  Fuel only bounds nesting; `jparse` supplies more
than any input can use. -/
def parseVal : Nat → List Char → Option (JVal × List Char)
  | 0, _ => none
  | Nat.succ fuel, cs =>
      match cs with
      | [] => none
      | c :: rest =>
          if c = 'n' then
            match rest with
            | 'u' :: 'l' :: 'l' :: rest2 => some (JVal.null, rest2)
            | _ => none
          else if c = 't' then
            match rest with
            | 'r' :: 'u' :: 'e' :: rest2 => some (JVal.bool true, rest2)
            | _ => none
          else if c = 'f' then
            match rest with
            | 'a' :: 'l' :: 's' :: 'e' :: rest2 => some (JVal.bool false, rest2)
            | _ => none
          else if c = dquote then
            match parseStr rest with
            | some (s, rest2) => some (JVal.str s, rest2)
            | none => none
          else if c = '[' then
            match skipWs rest with
            | d :: rest2 =>
                if d = ']' then some (JVal.arr [], rest2)
                else parseArrItems fuel (d :: rest2) []
            | [] => none
          else if c = lbrace then
            match skipWs rest with
            | d :: rest2 =>
                if d = rbrace then some (JVal.obj [], rest2)
                else parseObjItems fuel (d :: rest2) []
            | [] => none
          else parseNum cs

/-- Comma-separated array elements, accumulated in reverse. -/
def parseArrItems : Nat → List Char → List JVal → Option (JVal × List Char)
  | 0, _, _ => none
  | Nat.succ fuel, cs, acc =>
      match parseVal fuel cs with
      | none => none
      | some (v, rest) =>
          match skipWs rest with
          | d :: rest2 =>
              if d = ',' then parseArrItems fuel (skipWs rest2) (v :: acc)
              else if d = ']' then some (JVal.arr (v :: acc).reverse, rest2)
              else none
          | [] => none

/-- Comma-separated object members; duplicate keys collapse through
`dictInsert`, as later members overwrite earlier ones in `json.loads`. -/
def parseObjItems : Nat → List Char → Dict → Option (JVal × List Char)
  | 0, _, _ => none
  | Nat.succ fuel, cs, acc =>
      match cs with
      | c :: rest =>
          if c = dquote then
            match parseStr rest with
            | none => none
            | some (k, rest2) =>
                match skipWs rest2 with
                | d :: rest3 =>
                    if d = ':' then
                      match parseVal fuel (skipWs rest3) with
                      | none => none
                      | some (v, rest4) =>
                          let acc2 := dictInsert acc k v
                          match skipWs rest4 with
                          | e :: rest5 =>
                              if e = ',' then parseObjItems fuel (skipWs rest5) acc2
                              else if e = rbrace then some (JVal.obj acc2, rest5)
                              else none
                          | [] => none
                    else none
                | [] => none
          else none
      | [] => none

end

/-- `json.loads`: parse one JSON document and require the whole input to be
consumed (up to whitespace). -/
def jparse (s : String) : Option JVal :=
  match parseVal (2 * s.data.length + 8) (skipWs s.data) with
  | some (v, rest) => if skipWs rest = [] then some v else none
  | none => none

/- ## Python-semantics helpers used by `handle_request` -/

/-- Whether a JSON number lexeme denotes zero (all mantissa digits are 0):
Python truthiness of the corresponding number. -/
def numZero (s : String) : Bool :=
  ((s.data.takeWhile (fun c => c ≠ 'e' ∧ c ≠ 'E')).filter
    (fun c => c.isDigit)).all (fun c => c = '0')

/-- Python truthiness of a JSON-shaped value. -/
def pyTruthy : JVal → Bool
  | JVal.null => false
  | JVal.bool b => b
  | JVal.num s => !(numZero s)
  | JVal.str s => s ≠ ""
  | JVal.arr xs => !xs.isEmpty
  | JVal.obj kvs => !kvs.isEmpty

/-- `v.get(k, default)` in Python: `none` models the `AttributeError` raised
when `v` is not a dict. -/
def pyGet (v : JVal) (k : String) (default : JVal) : Option JVal :=
  match v with
  | JVal.obj kvs => some ((lookupD k kvs).getD default)
  | _ => none

/-- Python iteration over a value (`for x in v`): lists yield elements,
dicts their keys, strings their characters; `none` models the `TypeError`
raised for non-iterable values. -/
def pyIter (v : JVal) : Option (List JVal) :=
  match v with
  | JVal.arr xs => some xs
  | JVal.obj kvs => some (kvs.map (fun kv => JVal.str kv.1))
  | JVal.str s => some (s.data.map (fun c => JVal.str (String.singleton c)))
  | _ => none

/-- src/app.py line 162, `code = block.get("code") or ""`: `none` models the
exception raised when `block` is not a dict (`AttributeError`) or when the
`code` value is truthy but not a string (`TypeError` at the concatenation on
line 164). -/
def blockCode (block : JVal) : Option String :=
  match block with
  | JVal.obj kvs =>
      let v := (lookupD "code" kvs).getD JVal.null
      if pyTruthy v then
        match v with
        | JVal.str s => some s
        | _ => none
      else some ""
  | _ => none

def hexDigitChar (n : Nat) : Char :=
  if n < 10 then Char.ofNat (48 + n) else Char.ofNat (97 + (n - 10))

def hex4 (n : Nat) : String :=
  String.mk [hexDigitChar ((n / 4096) % 16), hexDigitChar ((n / 256) % 16),
             hexDigitChar ((n / 16) % 16), hexDigitChar (n % 16)]

/-- One character of `json.dumps` output for a string (default
`ensure_ascii=True`: everything outside printable ASCII is escaped). -/
def jescChar (c : Char) : String :=
  if c = dquote then String.mk [bslash, dquote]
  else if c = bslash then String.mk [bslash, bslash]
  else if c = '\n' then String.mk [bslash, 'n']
  else if c = '\t' then String.mk [bslash, 't']
  else if c = '\r' then String.mk [bslash, 'r']
  else if c = Char.ofNat 8 then String.mk [bslash, 'b']
  else if c = Char.ofNat 12 then String.mk [bslash, 'f']
  else if 32 ≤ c.toNat ∧ c.toNat < 127 then String.singleton c
  else if c.toNat < 65536 then String.mk [bslash, 'u'] ++ hex4 c.toNat
  else
    String.mk [bslash, 'u'] ++ hex4 (55296 + (c.toNat - 65536) / 1024) ++
    String.mk [bslash, 'u'] ++ hex4 (56320 + (c.toNat - 65536) % 1024)

/-- `json.dumps` on a Python string. -/
def jdumpStr (s : String) : String :=
  String.singleton dquote ++ String.join (s.data.map jescChar) ++
    String.singleton dquote

/-- src/app.py line 163: the prologue prepended to every code unit, which
changes the working directory to the host workspace path. -/
def safeCd (workdir : String) : String :=
  "import os\nos.chdir(" ++ jdumpStr workdir ++ ")\n"

/-- src/app.py lines 162-164: the full script text passed to
`call_python_script` for one plan block (`none` models the exception raised
for an ill-shaped block, which aborts the request). -/
def fullCodeOf (workdir : String) (block : JVal) : Option String :=
  (blockCode block).map (fun c => safeCd workdir ++ c)

/- ## SandboxRuntime: model of `call_python_script` (src/app.py 47-80) -/

/-- One file of the tar archive streamed into the container. -/
structure TarEntry where
  name : String
  content : String
deriving DecidableEq

/-- The Docker operations `call_python_script` performs, in order:
`getClient` is `_get_docker_client()` (which on first use checks for the
`python:3.11` base image and pulls it if absent). -/
inductive SboxEvent where
  | getClient : SboxEvent
  | create : String → String → SboxEvent
  | start : SboxEvent
  | putArchive : String → List TarEntry → SboxEvent
  | execCreate : String → SboxEvent
  | execStart : SboxEvent
  | remove : Bool → SboxEvent
deriving DecidableEq

/-- Abstract behavior of the Docker engine for one `call_python_script`
call: which operations succeed, and the output chunk stream of the executed
process as `(seconds since start, bytes)` pairs. -/
structure SboxBackend where
  createOk : Bool
  startOk : Bool
  putOk : Bool
  execCreateOk : Bool
  execOk : Bool
  chunks : List (Nat × List Nat)
  removeOk : Bool
deriving DecidableEq

def setRemoveOk (b : SboxBackend) (r : Bool) : SboxBackend :=
  SboxBackend.mk b.createOk b.startOk b.putOk b.execCreateOk b.execOk b.chunks r

def okBackend : SboxBackend :=
  SboxBackend.mk true true true true true [] true

def scriptName : String := "script.py"

/-- src/app.py lines 50-57: the tar stream holds exactly one member,
`script.py`, whose content is the script text. -/
def scriptArchive (script : String) : List TarEntry :=
  [TarEntry.mk scriptName script]

/-- src/app.py lines 69-74: the capture loop appends every chunk the stream
yields until it ends; the `timeout_sec` parameter is in scope but never
consulted. -/
def codeCapture (timeout_sec : Nat) (chunks : List (Nat × List Nat)) : List Nat :=
  (chunks.map Prod.snd).flatten

def replChar : Char := Char.ofNat 65533

def utf8Cont (b : Nat) : Bool := 128 ≤ b && b < 192

/-- Permissive UTF-8 decoding: well-formed sequences decode, anything else
becomes U+FFFD (models `bytes.decode("utf-8", errors="replace")`).  The fuel
only serves termination; `decodeUtf8Replace` supplies enough for any input. -/
def utf8DecodeReplaceAux : Nat → List Nat → List Char
  | 0, _ => []
  | _, [] => []
  | Nat.succ fuel, b :: rest =>
      if b < 128 then Char.ofNat b :: utf8DecodeReplaceAux fuel rest
      else if b < 194 then replChar :: utf8DecodeReplaceAux fuel rest
      else if b < 224 then
        match rest with
        | b2 :: rest2 =>
            if utf8Cont b2 then
              Char.ofNat ((b - 192) * 64 + (b2 - 128)) ::
                utf8DecodeReplaceAux fuel rest2
            else replChar :: utf8DecodeReplaceAux fuel rest
        | [] => [replChar]
      else if b < 240 then
        match rest with
        | b2 :: b3 :: rest3 =>
            if utf8Cont b2 && utf8Cont b3 then
              (let cp := (b - 224) * 4096 + (b2 - 128) * 64 + (b3 - 128)
               if 2048 ≤ cp ∧ ¬(55296 ≤ cp ∧ cp < 57344) then Char.ofNat cp
               else replChar) :: utf8DecodeReplaceAux fuel rest3
            else replChar :: utf8DecodeReplaceAux fuel rest
        | _ => replChar :: utf8DecodeReplaceAux fuel rest
      else if b < 245 then
        match rest with
        | b2 :: b3 :: b4 :: rest4 =>
            if utf8Cont b2 && utf8Cont b3 && utf8Cont b4 then
              (let cp := (b - 240) * 262144 + (b2 - 128) * 4096 +
                         (b3 - 128) * 64 + (b4 - 128)
               if 65536 ≤ cp ∧ cp < 1114112 then Char.ofNat cp else replChar) ::
                utf8DecodeReplaceAux fuel rest4
            else replChar :: utf8DecodeReplaceAux fuel rest
        | _ => replChar :: utf8DecodeReplaceAux fuel rest
      else replChar :: utf8DecodeReplaceAux fuel rest

def decodeUtf8Replace (bs : List Nat) : String :=
  String.mk (utf8DecodeReplaceAux (bs.length + 1) bs)

/-- src/app.py lines 47-80, `call_python_script`: get the Docker client
(image check), create a unit, and under `try`/`finally`: start it, stream
the one-file archive into `/tmp`, exec `python /tmp/script.py`, collect its
output; the `finally` block force-removes the container and swallows any
removal failure (`except Exception: pass`), so neither the result nor the
raised error depends on `removeOk`.  Returns the primary outcome and the
trace of performed Docker operations. -/
def call_python_script (b : SboxBackend) (script : String) (timeout_sec : Nat) :
    Except String String × List SboxEvent :=
  if b.createOk = false then
    (Except.error "docker create failed", [SboxEvent.getClient])
  else
    let body : Except String String × List SboxEvent :=
      if b.startOk = false then (Except.error "docker start failed", [])
      else if b.putOk = false then
        (Except.error "docker put_archive failed", [SboxEvent.start])
      else if b.execCreateOk = false then
        (Except.error "docker exec_create failed",
         [SboxEvent.start, SboxEvent.putArchive "/tmp" (scriptArchive script)])
      else if b.execOk = false then
        (Except.error "docker exec_start failed",
         [SboxEvent.start, SboxEvent.putArchive "/tmp" (scriptArchive script),
          SboxEvent.execCreate ("python /tmp/" ++ scriptName)])
      else
        (Except.ok (decodeUtf8Replace (codeCapture timeout_sec b.chunks)),
         [SboxEvent.start, SboxEvent.putArchive "/tmp" (scriptArchive script),
          SboxEvent.execCreate ("python /tmp/" ++ scriptName), SboxEvent.execStart])
    (body.1,
     SboxEvent.getClient :: SboxEvent.create "python:3.11" "sleep infinity" ::
       (body.2 ++ [SboxEvent.remove true]))

/-- Capture as the specification's words describe it: output is collected
only until the process exits or `timeout_sec` seconds elapse, so chunks
arriving after the timeout are not captured.  Stated for comparison with
`codeCapture`, the capture the source performs. -/
def specTimedCapture (timeout_sec : Nat) (chunks : List (Nat × List Nat)) : List Nat :=
  ((chunks.filter (fun c => c.1 < timeout_sec)).map Prod.snd).flatten

/- ## ResultAggregator (src/app.py 166-173) -/

def rawKey (i : Nat) : String := "block_" ++ toString i ++ "_raw"

/-- `json.loads(out.strip())` followed by the `isinstance(data, dict)` test
(src/app.py 167-168): `some kvs` when the trimmed output parses as a JSON
object, `none` when parsing raises or the parsed value is not a dict. -/
def parsedDict (out : String) : Option Dict :=
  match jparse (pyStrip out) with
  | some (JVal.obj kvs) => some kvs
  | _ => none

/-- src/app.py lines 166-173: fold one block's captured output into the
interim mapping — merge a parsed dict, otherwise store the raw (untrimmed)
output under the ordinal's synthetic key. -/
def foldBlock (interim : Dict) (i : Nat) (out : String) : Dict :=
  match parsedDict out with
  | some kvs => dictUpdate interim kvs
  | none => dictInsert interim (rawKey i) (JVal.str out)

/- ## ExecutionPlan parsing (src/app.py 154-157) -/

/-- src/app.py line 157: the degraded plan built when the planner output is
not parseable JSON. -/
def degradedPlan (raw : String) : JVal :=
  JVal.obj
    [("steps", JVal.arr []),
     ("python_blocks",
        JVal.arr [JVal.obj [("filename", JVal.str "run.py"),
                            ("code", JVal.str raw)]]),
     ("final_format", JVal.str "array")]

/-- src/app.py lines 154-157: `json.loads` the planner output, fall back to
the degraded plan when it raises. -/
def planOf (raw : String) : JVal :=
  match jparse raw with
  | some v => v
  | none => degradedPlan raw

/- ## WorkspaceManager (src/app.py 104-120) -/

/-- One multipart upload: its client-supplied filename (empty string for a
missing/None filename, which Python treats as falsy) and its bytes. -/
structure UFile where
  filename : String
  content : List Nat
deriving DecidableEq

/-- src/app.py line 105: a file qualifies as the question file when its
filename is truthy and, lowercased, ends in `questions.txt`. -/
def isQuestionFile (f : UFile) : Bool :=
  f.filename ≠ "" && strEndsWith (asciiLower f.filename) "questions.txt"

/-- `next((f for f in files if ...), None)`: the first matching file. -/
def findQFile (files : List UFile) : Option UFile :=
  files.find? isQuestionFile

/-- src/app.py line 108: `f is not qfile` removes exactly the object `next`
found — the first match — keeping any identical later uploads. -/
def attachmentsOf (files : List UFile) : List UFile :=
  match files.findIdx? isQuestionFile with
  | some i => files.eraseIdx i
  | none => files

/-- `os.path.join(a, b)` (posixpath): `b` absolute replaces `a`; otherwise
a separator is added unless `a` is empty or already ends in one. -/
def ospJoin (a b : String) : String :=
  if b.data.head? = some '/' then b
  else if a = "" then a ++ b
  else if a.data.getLast? = some '/' then a ++ b
  else a ++ "/" ++ b

def baseNameChars (cs : List Char) : List Char :=
  cs.foldl (fun acc c => if c = '/' then [] else acc ++ [c]) []

/-- `os.path.basename`: everything after the last separator. -/
def baseName (s : String) : String := String.mk (baseNameChars s.data)

/-- src/app.py line 117: the path an attachment is written to — the
client-supplied filename joined verbatim onto the workspace directory. -/
def stagedPath (workdir : String) (f : UFile) : String :=
  ospJoin workdir f.filename

/-- The names under which the request's files are staged relative to the
workspace directory (src/app.py lines 111 and 117): the question file as
`questions.txt`, each attachment under its supplied filename. -/
def workspaceFileNames (files : List UFile) : List String :=
  "questions.txt" :: (attachmentsOf files).map UFile.filename

/- ## RequestOrchestrator (src/app.py 104-201) -/

/-- The response `handle_request` produces: a JSON body with an HTTP status,
or a plain-text body. -/
inductive Response where
  | json : JVal → Nat → Response
  | text : String → Response

/-- Whether every Docker operation of one `call_python_script` call
succeeds. -/
def goodBackend (b : SboxBackend) : Bool :=
  b.createOk && b.startOk && b.putOk && b.execCreateOk && b.execOk

/-- src/app.py lines 161-173: run each plan block in order, folding each
captured output into the interim dict.  An exception inside one block (an
ill-shaped block, or a Docker failure out of `call_python_script`) aborts
the whole loop, as the uncaught exception does in the source. -/
def runBlocksAux (workdir : String) (sboxOf : Nat → SboxBackend) :
    Nat → Dict → List SboxEvent → List JVal → Except String (Dict × List SboxEvent)
  | _, interim, evs, [] => Except.ok (interim, evs)
  | i, interim, evs, block :: rest =>
      match fullCodeOf workdir block with
      | none => Except.error "TypeError: bad python block"
      | some code =>
          match call_python_script (sboxOf i) code 90 with
          | (Except.error e, _) => Except.error e
          | (Except.ok out, evs2) =>
              runBlocksAux workdir sboxOf (i + 1) (foldBlock interim i out)
                (evs ++ evs2) rest

/-- src/app.py lines 104-201, `handle_request`.  The reasoning provider's
two outputs (`planText` for planning, `finalText` for assembly) and the
Docker engine's behavior per block ordinal (`sboxOf`) are oracle inputs; the
workspace directory path is `workdir` and file writes to it are taken to
succeed (the paths they target are given by `stagedPath`).  `Except.error`
models an exception escaping to the outer handler, which turns it into a 500
response.  The event list records every Docker operation performed.  The
assembler's `plan.get("final_format", ...)` and
`plan.get("postprocess_instructions", ...)` reads only feed the prompt and
cannot raise once `plan.get("python_blocks", ...)` has succeeded, so they
are not modelled separately. -/
def handle_request (files : List UFile) (planText finalText workdir : String)
    (sboxOf : Nat → SboxBackend) : Except String (Response × List SboxEvent) :=
  match findQFile files with
  | none =>
      Except.ok
        (Response.json (JVal.obj [("error", JVal.str "questions.txt is required")]) 400,
         [])
  | some _ =>
      match pyGet (planOf planText) "python_blocks" (JVal.arr []) with
      | none => Except.error "AttributeError: plan has no attribute get"
      | some pb =>
          match pyIter pb with
          | none => Except.error "TypeError: python_blocks is not iterable"
          | some blocks =>
              match runBlocksAux workdir sboxOf 0 [] [] blocks with
              | Except.error e => Except.error e
              | Except.ok (interim, evs) =>
                  match jparse finalText with
                  | some v => Except.ok (Response.json v 200, evs)
                  | none => Except.ok (Response.text finalText, evs)

/- ## Dictionary lemmas -/

theorem lookupD_dictInsert (d : Dict) (k q : String) (v : JVal) :
    lookupD q (dictInsert d k v) = if k = q then some v else lookupD q d := by
  induction d with
  | nil => simp [dictInsert, lookupD]
  | cons kv rest ih =>
      obtain ⟨k0, v0⟩ := kv
      by_cases h1 : k0 = k
      · subst h1
        simp only [dictInsert, if_pos rfl, lookupD]
        by_cases h2 : k0 = q <;> simp [h2, lookupD]
      · simp only [dictInsert, if_neg h1, lookupD]
        by_cases h2 : k0 = q
        · subst h2
          have : ¬ k = k0 := fun h => h1 h.symm
          simp [this]
        · simp [h2, ih]

theorem lookupD_append (q : String) (xs ys : Dict) :
    lookupD q (xs ++ ys) =
      match lookupD q xs with
      | some v => some v
      | none => lookupD q ys := by
  induction xs with
  | nil => simp [lookupD]
  | cons kv rest ih =>
      obtain ⟨k0, v0⟩ := kv
      by_cases h : k0 = q <;> simp [lookupD, h, ih]

theorem lookupD_dictUpdate (q : String) (kvs : Dict) :
    ∀ d : Dict, lookupD q (dictUpdate d kvs) =
      match lookupFromEnd q kvs with
      | some v => some v
      | none => lookupD q d := by
  induction kvs with
  | nil => intro d; simp [dictUpdate, lookupFromEnd, lookupD, List.foldl]
  | cons kv rest ih =>
      intro d
      obtain ⟨k, v⟩ := kv
      have hstep : dictUpdate d ((k, v) :: rest) = dictUpdate (dictInsert d k v) rest := rfl
      rw [hstep, ih]
      unfold lookupFromEnd
      rw [List.reverse_cons, lookupD_append, lookupD_dictInsert]
      cases h : lookupD q rest.reverse with
      | some w => simp
      | none => by_cases hk : k = q <;> simp [hk, lookupD]

/-- When a block's `code` value is a string, `block.get("code") or ""`
yields exactly that string (an empty string is falsy, but `or ""` then
returns `""` which is the same string). -/
theorem blockCode_str (kvs : Dict) (s : String)
    (h : lookupD "code" kvs = some (JVal.str s)) :
    blockCode (JVal.obj kvs) = some s := by
  show (let v := (lookupD "code" kvs).getD JVal.null
        if pyTruthy v then
          match v with
          | JVal.str s => some s
          | _ => none
        else some "") = some s
  rw [h]
  by_cases hs : s = ""
  · subst hs; simp [pyTruthy]
  · simp [pyTruthy, hs]

theorem foldBlock_dict (interim : Dict) (i : Nat) (out : String) (kvs : Dict)
    (hp : parsedDict out = some kvs) :
    foldBlock interim i out = dictUpdate interim kvs := by
  unfold foldBlock
  rw [hp]

theorem foldBlock_raw (interim : Dict) (i : Nat) (out : String)
    (hp : parsedDict out = none) :
    foldBlock interim i out = dictInsert interim (rawKey i) (JVal.str out) := by
  unfold foldBlock
  rw [hp]

/-- Claim C5: for a code unit at ordinal `i` with captured output `out`, if
the trimmed output parses as a JSON keyed mapping, every key of that mapping
is merged into the interim dict with the mapping's (last-occurrence) value
overwriting whatever earlier units wrote, and keys outside the mapping are
untouched; if parsing fails or the value is not a keyed mapping, the raw
output string is stored under `block_<i>_raw` and everything else is
untouched. -/
theorem aggregator_merge_policy (interim : Dict) (i : Nat) (out : String) :
    (∀ kvs, parsedDict out = some kvs →
       (∀ k v, lookupFromEnd k kvs = some v →
          lookupD k (foldBlock interim i out) = some v) ∧
       (∀ k, lookupFromEnd k kvs = none →
          lookupD k (foldBlock interim i out) = lookupD k interim)) ∧
    (parsedDict out = none →
       lookupD (rawKey i) (foldBlock interim i out) = some (JVal.str out) ∧
       ∀ k, k ≠ rawKey i →
          lookupD k (foldBlock interim i out) = lookupD k interim) := by
  constructor
  · intro kvs hp
    rw [foldBlock_dict interim i out kvs hp]
    constructor
    · intro k v hv
      rw [lookupD_dictUpdate, hv]
    · intro k hk
      rw [lookupD_dictUpdate, hk]
  · intro hp
    rw [foldBlock_raw interim i out hp]
    constructor
    · rw [lookupD_dictInsert]
      simp
    · intro k hk
      rw [lookupD_dictInsert]
      rw [if_neg (fun h => hk h.symm)]

/-- Witness for C5: the spec's own scenario — outputs `{"x":1}` then
`{"x":2}` leave `x = 2`, and non-JSON output `hello` at ordinal 2 is stored
under `block_2_raw`. -/
theorem aggregator_merge_policy_witness :
    lookupD "x" (foldBlock (foldBlock [] 0 "\x7b\"x\":1\x7d") 1 "\x7b\"x\":2\x7d") =
      some (JVal.num "2") ∧
    lookupD (rawKey 2) (foldBlock [] 2 "hello") = some (JVal.str "hello") := by
  constructor
  · exact ((aggregator_merge_policy (foldBlock [] 0 "\x7b\"x\":1\x7d") 1
      "\x7b\"x\":2\x7d").1 [("x", JVal.num "2")] rfl).1 "x" (JVal.num "2") rfl
  · exact ((aggregator_merge_policy [] 2 "hello").2 rfl).1

/-- Claim C6 is refuted at output `{}` (an empty JSON object): folding it
leaves the interim dict unchanged — starting from an empty interim, no entry
at all is recorded for the unit. -/
theorem unit_output_dropped_cex :
    foldBlock [] 0 "\x7b\x7d" = [] ∧
    ¬ ∃ k v, lookupD k (foldBlock [] 0 "\x7b\x7d") = some v := by
  have h : foldBlock [] 0 "\x7b\x7d" = [] := rfl
  refine ⟨h, ?_⟩
  rintro ⟨k, v, hv⟩
  rw [h] at hv
  simp [lookupD] at hv

/-- Claim C6 (amended): unless the unit's output parses to an *empty* keyed
mapping (which contributes nothing), folding adds at least one entry
attributable to that unit — either a key of its parsed mapping with that
mapping's value, or the synthetic `block_<i>_raw` key with the raw output. -/
theorem unit_output_recorded (interim : Dict) (i : Nat) (out : String)
    (h : parsedDict out ≠ some []) :
    ∃ k v, lookupD k (foldBlock interim i out) = some v ∧
      ((∃ kvs, parsedDict out = some kvs ∧ lookupFromEnd k kvs = some v) ∨
       (parsedDict out = none ∧ k = rawKey i ∧ v = JVal.str out)) := by
  have hcases : parsedDict out = none ∨ ∃ kvs, parsedDict out = some kvs :=
    match parsedDict out with
    | none => Or.inl rfl
    | some kvs => Or.inr ⟨kvs, rfl⟩
  rcases hcases with hp | ⟨kvs, hp⟩
  · refine ⟨rawKey i, JVal.str out, ?_, Or.inr ⟨hp, rfl, rfl⟩⟩
    rw [foldBlock_raw interim i out hp, lookupD_dictInsert]
    simp
  · cases kvs with
    | nil => exact absurd hp h
    | cons kv0 rest =>
        obtain ⟨pl, tl, hrev⟩ :
            ∃ p t, (kv0 :: rest).reverse = p :: t := by
          cases hr : (kv0 :: rest).reverse with
          | nil =>
              exact absurd (List.reverse_eq_nil_iff.mp hr) (by simp)
          | cons p t => exact ⟨p, t, rfl⟩
        have hlast : lookupFromEnd pl.1 (kv0 :: rest) = some pl.2 := by
          unfold lookupFromEnd
          rw [hrev]
          simp [lookupD]
        refine ⟨pl.1, pl.2, ?_, Or.inl ⟨kv0 :: rest, hp, hlast⟩⟩
        rw [foldBlock_dict interim i out _ hp, lookupD_dictUpdate, hlast]

/-- Witness for (amended) C6: non-JSON output `hello` at ordinal 2 yields an
entry. -/
theorem unit_output_recorded_witness :
    ∃ k v, lookupD k (foldBlock [] 2 "hello") = some v ∧
      ((∃ kvs, parsedDict "hello" = some kvs ∧ lookupFromEnd k kvs = some v) ∨
       (parsedDict "hello" = none ∧ k = rawKey 2 ∧ v = JVal.str "hello")) :=
  unit_output_recorded [] 2 "hello"
    (by have h : parsedDict "hello" = none := rfl
        rw [h]
        simp)

/-- Claim C8: when the planner output fails JSON parsing, the plan is the
degraded one — empty steps, exactly one code unit named with the default
filename `run.py` whose code is the raw planner output verbatim, and
`final_format = "array"`; and `block.get("code") or ""` on that unit yields
the raw text back. -/
theorem plan_parse_fallback (raw : String) (h : jparse raw = none) :
    planOf raw = JVal.obj
      [("steps", JVal.arr []),
       ("python_blocks",
          JVal.arr [JVal.obj [("filename", JVal.str "run.py"),
                              ("code", JVal.str raw)]]),
       ("final_format", JVal.str "array")] ∧
    blockCode (JVal.obj [("filename", JVal.str "run.py"),
                         ("code", JVal.str raw)]) = some raw := by
  constructor
  · unfold planOf
    rw [h]
    rfl
  · exact blockCode_str _ raw rfl

/-- Witness for C8: the spec's own scenario, planner output `not json`. -/
theorem plan_parse_fallback_witness :
    planOf "not json" = JVal.obj
      [("steps", JVal.arr []),
       ("python_blocks",
          JVal.arr [JVal.obj [("filename", JVal.str "run.py"),
                              ("code", JVal.str "not json")]]),
       ("final_format", JVal.str "array")] ∧
    blockCode (JVal.obj [("filename", JVal.str "run.py"),
                         ("code", JVal.str "not json")]) = some "not json" :=
  plan_parse_fallback "not json" rfl

/-- Claim C4: once unit creation succeeded, the container is force-removed
as the very last Docker operation on every exit path (start, injection or
execution failure included), and the call's outcome — result or raised
error — is the same whether or not the removal itself succeeds. -/
theorem sandbox_teardown (b : SboxBackend) (script : String) (t : Nat)
    (h : b.createOk = true) :
    ((call_python_script b script t).2).getLast? = some (SboxEvent.remove true) ∧
    ∀ r : Bool,
      call_python_script (setRemoveOk b r) script t =
        call_python_script b script t := by
  obtain ⟨c, s, p, e1, e2, ch, rm⟩ := b
  cases c with
  | false => exact Bool.noConfusion h
  | true =>
      refine ⟨?_, fun r => rfl⟩
      cases s <;> cases p <;> cases e1 <;> cases e2 <;> rfl

/-- Witness for C4 at a concrete backend and script. -/
theorem sandbox_teardown_witness :
    ((call_python_script okBackend "x" 90).2).getLast? =
      some (SboxEvent.remove true) ∧
    call_python_script (setRemoveOk okBackend false) "x" 90 =
      call_python_script okBackend "x" 90 :=
  ⟨(sandbox_teardown okBackend "x" 90 rfl).1,
   (sandbox_teardown okBackend "x" 90 rfl).2 false⟩

/-- The tar entries an event carries, when it is an archive injection. -/
def entriesOfPut : SboxEvent → List TarEntry
  | SboxEvent.putArchive _ entries => entries
  | _ => []

/-- Claim C1 is refuted: for a request staging the attachment `data.csv`,
the archive streamed into the unit contains only `script.py` — no archive
transfer carries the staged question file or attachments. -/
theorem archive_lacks_workspace_files_cex :
    "data.csv" ∈ workspaceFileNames
      [UFile.mk "questions.txt" [], UFile.mk "data.csv" []] ∧
    SboxEvent.putArchive "/tmp" [TarEntry.mk "script.py" "print(1)"] ∈
      (call_python_script okBackend "print(1)" 90).2 ∧
    ∀ e ∈ (call_python_script okBackend "print(1)" 90).2,
      ∀ te ∈ entriesOfPut e, te.name ≠ "data.csv" := by
  refine ⟨?_, ?_, ?_⟩ <;> decide

/-- Claim C1 (amended): after provisioning and starting the unit there is
exactly one batched archive transfer, performed before the code executes,
and it carries exactly one file — `script.py` holding the given code; the
workspace's staged files are not injected. -/
theorem single_script_archive_before_exec (b : SboxBackend) (script : String)
    (t : Nat) (h : goodBackend b = true) :
    (call_python_script b script t).2 =
      [SboxEvent.getClient, SboxEvent.create "python:3.11" "sleep infinity",
       SboxEvent.start,
       SboxEvent.putArchive "/tmp" [TarEntry.mk "script.py" script],
       SboxEvent.execCreate "python /tmp/script.py", SboxEvent.execStart,
       SboxEvent.remove true] := by
  obtain ⟨c, s, p, e1, e2, ch, rm⟩ := b
  have h5 : c = true ∧ s = true ∧ p = true ∧ e1 = true ∧ e2 = true := by
    cases c <;> cases s <;> cases p <;> cases e1 <;> cases e2 <;>
      simp_all [goodBackend]
  obtain ⟨hc, hs, hp2, he1, he2⟩ := h5
  subst hc
  subst hs
  subst hp2
  subst he1
  subst he2
  rfl

/-- Witness for (amended) C1 at a concrete backend and script. -/
theorem single_script_archive_before_exec_witness :
    (call_python_script okBackend "print(1)" 90).2 =
      [SboxEvent.getClient, SboxEvent.create "python:3.11" "sleep infinity",
       SboxEvent.start,
       SboxEvent.putArchive "/tmp" [TarEntry.mk "script.py" "print(1)"],
       SboxEvent.execCreate "python /tmp/script.py", SboxEvent.execStart,
       SboxEvent.remove true] :=
  single_script_archive_before_exec okBackend "print(1)" 90 rfl

theorem blockCode_obj (kvs : Dict) :
    blockCode (JVal.obj kvs) =
      (let v := (lookupD "code" kvs).getD JVal.null
       if pyTruthy v then
         match v with
         | JVal.str s => some s
         | _ => none
       else some "") := rfl

theorem execCreate_cmd_fixed (b : SboxBackend) (s : String) (t : Nat)
    (cmd : String)
    (h : SboxEvent.execCreate cmd ∈ (call_python_script b s t).2) :
    cmd = "python /tmp/script.py" := by
  obtain ⟨c, s1, p, e1, e2, ch, rm⟩ := b
  cases c <;> cases s1 <;> cases p <;> cases e1 <;> cases e2 <;>
    simp [call_python_script, scriptArchive] at h <;>
    (try subst h) <;> decide

/-- Claim C10: for every executed code unit the script injected is exactly
the `os.chdir` prologue for the host workspace path followed by the unit's
code — the empty string when the `code` field is missing or null — the exec
command is the fixed `python /tmp/script.py`, and the unit's `filename`
field is never consulted. -/
theorem script_content_and_command (workdir : String) (kvs : Dict) (v : JVal)
    (b : SboxBackend) (s : String) (t : Nat) :
    (lookupD "code" kvs = none →
       fullCodeOf workdir (JVal.obj kvs) = some (safeCd workdir ++ "")) ∧
    (lookupD "code" kvs = some JVal.null →
       fullCodeOf workdir (JVal.obj kvs) = some (safeCd workdir ++ "")) ∧
    (∀ c, lookupD "code" kvs = some (JVal.str c) →
       fullCodeOf workdir (JVal.obj kvs) = some (safeCd workdir ++ c)) ∧
    fullCodeOf workdir (JVal.obj (("filename", v) :: kvs)) =
      fullCodeOf workdir (JVal.obj kvs) ∧
    (∀ cmd, SboxEvent.execCreate cmd ∈ (call_python_script b s t).2 →
       cmd = "python /tmp/script.py") := by
  have hcons : lookupD "code" (("filename", v) :: kvs) = lookupD "code" kvs := by
    show (if ("filename" : String) = "code" then some v
          else lookupD "code" kvs) = lookupD "code" kvs
    rw [if_neg (by decide)]
  refine ⟨fun h => ?_, fun h => ?_, fun c hc => ?_, ?_, fun cmd hm => execCreate_cmd_fixed b s t cmd hm⟩
  · unfold fullCodeOf
    rw [blockCode_obj, h]
    rfl
  · unfold fullCodeOf
    rw [blockCode_obj, h]
    rfl
  · unfold fullCodeOf
    rw [blockCode_str kvs c hc]
    rfl
  · unfold fullCodeOf
    rw [blockCode_obj, blockCode_obj, hcons]

/-- Witness for C10 at concrete blocks, a concrete backend and script. -/
theorem script_content_and_command_witness :
    fullCodeOf "/w" (JVal.obj []) = some (safeCd "/w" ++ "") ∧
    fullCodeOf "/w" (JVal.obj [("code", JVal.null)]) = some (safeCd "/w" ++ "") ∧
    fullCodeOf "/w" (JVal.obj [("code", JVal.str "print(1)")]) =
      some (safeCd "/w" ++ "print(1)") ∧
    fullCodeOf "/w" (JVal.obj [("filename", JVal.str "run1.py"),
                               ("code", JVal.str "print(1)")]) =
      fullCodeOf "/w" (JVal.obj [("code", JVal.str "print(1)")]) ∧
    ("python /tmp/script.py" : String) = "python /tmp/script.py" := by
  refine ⟨?_, ?_, ?_, ?_, ?_⟩
  · exact (script_content_and_command "/w" [] JVal.null okBackend "x" 90).1 rfl
  · exact (script_content_and_command "/w" [("code", JVal.null)] JVal.null
      okBackend "x" 90).2.1 rfl
  · exact (script_content_and_command "/w" [("code", JVal.str "print(1)")]
      JVal.null okBackend "x" 90).2.2.1 "print(1)" rfl
  · exact (script_content_and_command "/w" [("code", JVal.str "print(1)")]
      (JVal.str "run1.py") okBackend "x" 90).2.2.2.1
  · exact (script_content_and_command "/w" [] JVal.null okBackend "x" 90).2.2.2.2
      "python /tmp/script.py" (by decide)

/-- Claim C2 is a code bug: `call_python_script` declares a `timeout_sec`
parameter but never consults it — the capture loop collects every chunk
until the stream ends, so a chunk arriving at second 100 is captured under a
90-second timeout, and the captured output is identical for any two timeout
values, contradicting the specified bounded-capture behavior
(`specTimedCapture`). -/
theorem capture_ignores_timeout :
    codeCapture 90 [(100, [104, 105])] = [104, 105] ∧
    specTimedCapture 90 [(100, [104, 105])] = [] ∧
    codeCapture 90 [(100, [104, 105])] ≠ specTimedCapture 90 [(100, [104, 105])] ∧
    ∀ t1 t2 : Nat, ∀ chunks : List (Nat × List Nat),
      codeCapture t1 chunks = codeCapture t2 chunks :=
  ⟨rfl, rfl, by decide, fun t1 t2 chunks => rfl⟩

/-- Claim C9: a request whose uploads contain no question file gets the 400
client-error response, and the Docker event trace is empty — no client/image
check, no unit creation, no sandbox operation at all. -/
theorem missing_question_file (files : List UFile)
    (planText finalText workdir : String) (sboxOf : Nat → SboxBackend)
    (h : ∀ f ∈ files, isQuestionFile f = false) :
    handle_request files planText finalText workdir sboxOf =
      Except.ok
        (Response.json (JVal.obj [("error", JVal.str "questions.txt is required")]) 400,
         []) := by
  have hq : findQFile files = none := by
    unfold findQFile
    rw [List.find?_eq_none]
    intro x hx
    simp [h x hx]
  unfold handle_request
  rw [hq]

/-- Witness for C9: a request with only a `data.csv` upload. -/
theorem missing_question_file_witness :
    handle_request [UFile.mk "data.csv" []] "plan" "final" "/w"
      (fun _ => okBackend) =
      Except.ok
        (Response.json (JVal.obj [("error", JVal.str "questions.txt is required")]) 400,
         []) :=
  missing_question_file [UFile.mk "data.csv" []] "plan" "final" "/w"
    (fun _ => okBackend) (by decide)

/-- Claim C7 is refuted: an attachment named `../evil.txt` is written to
`os.path.join(workdir, "../evil.txt")`, not to the basename path inside the
workspace — the filename is used verbatim, so the written path escapes the
workspace directory. -/
theorem staged_path_escapes_cex :
    stagedPath "/w" (UFile.mk "../evil.txt" []) = "/w/../evil.txt" ∧
    ospJoin "/w" (baseName "../evil.txt") = "/w/evil.txt" ∧
    stagedPath "/w" (UFile.mk "../evil.txt" []) ≠
      ospJoin "/w" (baseName "../evil.txt") := by
  refine ⟨rfl, rfl, by decide⟩

theorem foldl_no_sep (cs : List Char) :
    ∀ acc, (∀ c ∈ cs, c ≠ '/') →
      cs.foldl (fun acc c => if c = '/' then [] else acc ++ [c]) acc = acc ++ cs := by
  induction cs with
  | nil =>
      intro acc _
      simp
  | cons c rest ih =>
      intro acc h
      have hc : c ≠ '/' := h c (by simp)
      simp only [List.foldl_cons, if_neg hc]
      rw [ih (acc ++ [c]) (fun x hx => h x (by simp [hx]))]
      simp

theorem baseNameChars_no_sep (cs : List Char) (h : ∀ c ∈ cs, c ≠ '/') :
    baseNameChars cs = cs := by
  unfold baseNameChars
  rw [foldl_no_sep cs [] h]
  simp

/-- Claim C7 (amended): the supplied filename is joined verbatim (it is not
reduced to its basename); when it contains no path separator the staged path
is the direct child `workdir/filename` — such a filename is its own
basename, so only separator-carrying filenames escape the workspace. -/
theorem staged_path_verbatim (workdir : String) (f : UFile)
    (h1 : ∀ c ∈ f.filename.data, c ≠ '/') (h2 : f.filename ≠ "")
    (h3 : workdir ≠ "") (h4 : workdir.data.getLast? ≠ some '/') :
    stagedPath workdir f = workdir ++ "/" ++ f.filename ∧
    baseName f.filename = f.filename := by
  constructor
  · unfold stagedPath ospJoin
    have hh : f.filename.data.head? ≠ some '/' := by
      cases hd : f.filename.data with
      | nil => simp
      | cons c rest =>
          simp only [List.head?]
          intro hcon
          exact h1 c (by rw [hd]; simp) (Option.some.inj hcon)
    rw [if_neg hh, if_neg h3, if_neg h4]
  · unfold baseName
    rw [baseNameChars_no_sep f.filename.data h1]

/-- Witness for (amended) C7: attachment `data.csv` in workspace `/w`. -/
theorem staged_path_verbatim_witness :
    stagedPath "/w" (UFile.mk "data.csv" []) = "/w" ++ "/" ++ "data.csv" ∧
    baseName "data.csv" = "data.csv" :=
  staged_path_verbatim "/w" (UFile.mk "data.csv" []) (by decide) (by decide)
    (by decide) (by decide)

/-- Claim C3 is refuted: planner output `[1,2,3]` is valid JSON but not the
expected plan shape; `json.loads` succeeds, so the degraded fallback is not
taken, and `plan.get("python_blocks", [])` raises `AttributeError`, aborting
the request with a server error instead of recovering. -/
theorem wrong_shape_plan_aborts_cex :
    handle_request [UFile.mk "questions.txt" []] "[1,2,3]" "ok" "/w"
      (fun _ => okBackend) =
      Except.error "AttributeError: plan has no attribute get" := rfl

/-- Claim C3 (amended): a planner output that is not *syntactically valid
JSON* is always recovered via the degraded plan, and the assembly output is
always handled (structured if it parses, plain text otherwise) — under a
working sandbox the request completes without error for every such planner
output and every assembly output whatsoever. -/
theorem parse_failure_recovered (files : List UFile)
    (planText finalText workdir : String) (sboxOf : Nat → SboxBackend)
    (hplan : jparse planText = none) (hsb : goodBackend (sboxOf 0) = true) :
    ∃ resp evs, handle_request files planText finalText workdir sboxOf =
      Except.ok (resp, evs) := by
  cases hq : findQFile files with
  | none => exact ⟨_, _, by unfold handle_request; rw [hq]⟩
  | some q =>
      have hplanOf : planOf planText = degradedPlan planText := by
        unfold planOf
        rw [hplan]
      have h1 : pyGet (degradedPlan planText) "python_blocks" (JVal.arr []) =
          some (JVal.arr [JVal.obj [("filename", JVal.str "run.py"),
                                    ("code", JVal.str planText)]]) := rfl
      have h2 : pyIter (JVal.arr [JVal.obj [("filename", JVal.str "run.py"),
                                            ("code", JVal.str planText)]]) =
          some [JVal.obj [("filename", JVal.str "run.py"),
                          ("code", JVal.str planText)]] := rfl
      have hcode : fullCodeOf workdir
          (JVal.obj [("filename", JVal.str "run.py"),
                     ("code", JVal.str planText)]) =
          some (safeCd workdir ++ planText) := by
        unfold fullCodeOf
        rw [blockCode_str [("filename", JVal.str "run.py"),
              ("code", JVal.str planText)] planText rfl]
        rfl
      obtain ⟨out, evs2, hcall⟩ : ∃ out evs2,
          call_python_script (sboxOf 0) (safeCd workdir ++ planText) 90 =
            (Except.ok out, evs2) := by
        generalize sboxOf 0 = b at hsb
        obtain ⟨c, s1, p, e1, e2, ch, rm⟩ := b
        cases c <;> cases s1 <;> cases p <;> cases e1 <;> cases e2 <;>
          simp [goodBackend] at hsb <;> exact ⟨_, _, rfl⟩
      have hrun : runBlocksAux workdir sboxOf 0 [] []
          [JVal.obj [("filename", JVal.str "run.py"),
                     ("code", JVal.str planText)]] =
          Except.ok (foldBlock [] 0 out, [] ++ evs2) := by
        unfold runBlocksAux
        simp only [hcode, hcall]
        rfl
      cases hf : jparse finalText with
      | some v =>
          refine ⟨Response.json v 200, [] ++ evs2, ?_⟩
          unfold handle_request
          simp only [hq, hplanOf, h1, h2, hrun, hf]
      | none =>
          refine ⟨Response.text finalText, [] ++ evs2, ?_⟩
          unfold handle_request
          simp only [hq, hplanOf, h1, h2, hrun, hf]

/-- Witness for (amended) C3: the spec's own inputs — planner output
`not json`, assembler output `plain answer` — complete without error. -/
theorem parse_failure_recovered_witness :
    ∃ resp evs,
      handle_request [UFile.mk "questions.txt" []] "not json" "plain answer"
        "/w" (fun _ => okBackend) = Except.ok (resp, evs) :=
  parse_failure_recovered [UFile.mk "questions.txt" []] "not json"
    "plain answer" "/w" (fun _ => okBackend) rfl rfl
